import Mathlib

/-!
Verification of the letta-code-sdk session message pump, bounded delivery
queue, permission barrier and wire-to-SDK message translation, as a shallow
embedding of `src/session.ts` (the pump-based `Session` class).

Conventions of the embedding:
* JavaScript promises resolved by stored resolver functions are modelled as
  explicit state (`InitFutureState`, the waiter-id list `messageResolvers`
  together with the `deliveries` log recording which waiter received which
  value).
* `JSON.parse` with its try/catch is modelled by an arbitrary parse oracle
  `String → Option Json`; `none` stands for "JSON.parse threw".
* `console.warn` is modelled by appending the warning text to a `warnings`
  log.
* The single-threaded interleaving semantics of the approval barrier is
  modelled by an explicit small-step transition relation (`BarrierStep`).
-/

namespace LettaSDK

/-- A JSON value, the carrier for parsed tool-call arguments. -/
inductive Json where
  | null : Json
  | bool (b : Bool) : Json
  | num (n : Int) : Json
  | str (s : String) : Json
  | arr (elems : List Json) : Json
  | obj (fields : List (String × Json)) : Json

/-- One element of a wire `tool_calls` array (or the singular `tool_call`
field): name, raw argument string and the tool call id. -/
structure ToolCallData where
  name : String
  arguments : String
  tool_call_id : String

/-- Data of a `control_request` wire frame. Only the fields the session
inspects are kept: the request id lives on the frame, the request carries a
subtype (and, for `can_use_tool`, a tool name and input). -/
structure ControlRequestData where
  subtype : String
  tool_name : String
  input : Json

/-- Inbound wire frame, discriminated by its `type` field exactly as the
TypeScript union is; option fields model possibly-absent JSON fields. -/
inductive WireMessage where
  | system (subtype : String) (agent_id : String) (session_id : String)
      (conversation_id : String) (model : String) (tools : List String)
  | message (message_type : String) (uuid : String) (content : Option String)
      (tool_call : Option ToolCallData) (tool_calls : Option (List ToolCallData))
      (tool_call_id : Option String) (tool_return : Option String)
      (status : Option String) (reasoning : Option String)
  | stream_event (event : Json) (uuid : String)
  | result (subtype : String) (result : Option String) (duration_ms : Int)
      (total_cost_usd : Option Int) (conversation_id : String)
  | control_request (request_id : String) (request : ControlRequestData)
  | control_response
  | otherFrame

/-- Outbound SDK message union, mirroring the `SDKMessage` type. -/
inductive SDKMessage where
  | init (agentId : String) (sessionId : String) (conversationId : String)
      (model : String) (tools : List String)
  | assistant (content : String) (uuid : String)
  | tool_call (toolCallId : String) (toolName : String) (toolInput : Json)
      (uuid : String)
  | tool_result (toolCallId : String) (content : String) (isError : Bool)
      (uuid : String)
  | reasoning (content : String) (uuid : String)
  | result (success : Bool) (res : Option String) (error : Option String)
      (durationMs : Int) (totalCostUsd : Option Int) (conversationId : String)
  | stream_event (event : Json) (uuid : String)

/-- JavaScript truthiness of a possibly-absent string field: present and
non-empty. -/
def truthyStr : Option String → Bool
  | some s => !(s == "")
  | none => false

/-- The tool-input fallback: `JSON.parse(arguments)` inside try/catch,
degrading to an object with a single `raw` field holding the original
string when the parse oracle fails. -/
def parseToolInput (parse : String → Option Json) (arguments : String) : Json :=
  match parse arguments with
  | some j => j
  | none => Json.obj [("raw", Json.str arguments)]

/-- The JavaScript expression picking the tool call:
`msg.tool_calls?.[0] || msg.tool_call`. -/
def firstToolCall (tool_calls : Option (List ToolCallData))
    (tool_call : Option ToolCallData) : Option ToolCallData :=
  match tool_calls with
  | some (t :: _) => some t
  | _ => tool_call

/-- `Session.transformMessage`: translate one wire frame into at most one
SDK message, parameterised by the JSON parse oracle. Mirrors the source's
sequential dispatch on `type` / `message_type` / field truthiness. -/
def transformMessage (parse : String → Option Json) : WireMessage → Option SDKMessage
  | .system subtype a s c m t =>
      if subtype == "init" then some (.init a s c m t) else none
  | .message mt uuid content tc tcs tcid tret status reasoning =>
      if mt == "assistant_message" && truthyStr content then
        some (.assistant (content.getD "") uuid)
      else if mt == "tool_call_message" then
        match firstToolCall tcs tc with
        | some t =>
            some (.tool_call t.tool_call_id t.name
              (parseToolInput parse t.arguments) uuid)
        | none => none
      else if mt == "tool_return_message" && truthyStr tcid then
        some (.tool_result (tcid.getD "") (tret.getD "")
          (status == some "error") uuid)
      else if mt == "reasoning_message" && truthyStr reasoning then
        some (.reasoning (reasoning.getD "") uuid)
      else none
  | .stream_event ev uuid => some (.stream_event ev uuid)
  | .result subtype res dur cost conv =>
      some (.result (subtype == "success") res
        (if subtype == "success" then none else some subtype) dur cost conv)
  | .control_request _ _ => none
  | .control_response => none
  | .otherFrame => none

example :
    transformMessage (fun _ => none)
      (.message "tool_call_message" "u1" none none
        (some [⟨"Bash", "not json", "id1"⟩]) none none none none)
      = some (.tool_call "id1" "Bash" (Json.obj [("raw", Json.str "not json")]) "u1") := rfl

example :
    transformMessage (fun _ => none)
      (.message "tool_call_message" "u1" none none none none none none none) = none := rfl

/-- State of the one-shot init promise trio
(`initPromise`/`initResolver`/`initRejecter`): no promise allocated yet, a
pending promise, or a promise that has been settled (the trio is nulled out
at settlement time in the source; we keep the settlement value to state
what the awaiting `initialize()` call observes). -/
inductive InitFutureState where
  | noPromise
  | pending
  | resolvedWith (m : SDKMessage)
  | rejectedWith (e : String)

/-- The mutable fields of the pump-based `Session` that the delivery queue,
waiter registry, init future and pump touch. Waiters are identified by
`Nat` ids; `deliveries` logs, in order, which waiter was resolved with
which value (`none` being the terminal null signal). -/
structure SessionState where
  messageQueue : List SDKMessage
  messageResolvers : List Nat
  queuedInitMessage : Option SDKMessage
  maxQueueSize : Int
  droppedMessageCount : Nat
  warnings : List String
  pumpClosed : Bool
  pumpError : Option String
  initFuture : InitFutureState
  pendingInitMessage : Option SDKMessage
  deliveries : List (Nat × Option SDKMessage)

/-- The diagnostic text passed to `console.warn` when a queued message is
dropped, carrying the cumulative dropped count. -/
def warnText (n : Nat) : String :=
  "[letta-code-sdk] Dropped queued message due to full queue. droppedMessageCount=" ++ toString n

/-- The `while (this.messageQueue.length >= this.maxQueueSize)` loop body of
`dropOldestIfNeeded`: shift the oldest entry, bump the dropped count, emit
the diagnostic; an empty queue breaks out of the loop. -/
def dropLoop (maxQueueSize : Int) :
    List SDKMessage → Nat → List String → List SDKMessage × Nat × List String
  | [], dropped, warnings => ([], dropped, warnings)
  | m :: rest, dropped, warnings =>
    if maxQueueSize ≤ ((m :: rest).length : Int) then
      dropLoop maxQueueSize rest (dropped + 1) (warnings ++ [warnText (dropped + 1)])
    else (m :: rest, dropped, warnings)

/-- `Session.dropOldestIfNeeded`: no-op when the capacity is non-positive,
otherwise evict oldest entries until the queue is strictly below capacity. -/
def dropOldestIfNeeded (s : SessionState) : SessionState :=
  if s.maxQueueSize ≤ 0 then s
  else
    let r := dropLoop s.maxQueueSize s.messageQueue s.droppedMessageCount s.warnings
    { s with messageQueue := r.1, droppedMessageCount := r.2.1, warnings := r.2.2 }

/-- `Session.enqueueMessage`: satisfy the oldest waiter if one is parked,
otherwise evict as needed and append to the queue. -/
def enqueueMessage (msg : SDKMessage) (s : SessionState) : SessionState :=
  match s.messageResolvers with
  | w :: rest =>
      { s with messageResolvers := rest,
               deliveries := s.deliveries ++ [(w, some msg)] }
  | [] =>
      let s1 := dropOldestIfNeeded s
      { s1 with messageQueue := s1.messageQueue ++ [msg] }

/-- `Session.queueInitMessage`: hand the init message to the oldest parked
waiter if any, otherwise cache it in `queuedInitMessage` when that cache is
empty. -/
def queueInitMessage (msg : SDKMessage) (s : SessionState) : SessionState :=
  match s.messageResolvers with
  | w :: rest =>
      { s with messageResolvers := rest,
               deliveries := s.deliveries ++ [(w, some msg)] }
  | [] =>
      match s.queuedInitMessage with
      | none => { s with queuedInitMessage := some msg }
      | some _ => s

/-- `Session.resolveMessageReaders`: resolve every parked waiter with the
terminal null signal and clear the registry. -/
def resolveMessageReaders (s : SessionState) : SessionState :=
  { s with deliveries := s.deliveries ++ s.messageResolvers.map (fun w => (w, none)),
           messageResolvers := [] }

/-- `Session.resolveInitMessage`: resolve the pending init future if one
exists, otherwise stash the message in `pendingInitMessage`. -/
def resolveInitMessage (msg : SDKMessage) (s : SessionState) : SessionState :=
  match s.initFuture with
  | .pending => { s with initFuture := .resolvedWith msg }
  | _ => { s with pendingInitMessage := some msg }

/-- The error message used when the pump closes with the init future still
unresolved. -/
def noInitError : String := "Failed to initialize session - no init message received"

/-- `Session.rejectInitIfPending`: reject a still-pending init future with
the no-init error. -/
def rejectInitIfPending (s : SessionState) : SessionState :=
  match s.initFuture with
  | .pending => { s with initFuture := .rejectedWith noInitError }
  | _ => s

/-- Outcome of one `readSdkMessage` call: a message returned synchronously,
a thrown stored pump error, the terminal null, or a newly parked waiter. -/
inductive ReadOutcome where
  | msg (m : SDKMessage)
  | threw (e : String)
  | closedNull
  | parked (w : Nat)

/-- `Session.readSdkMessage`, with `w` the id under which a new waiter would
be parked: cached init message first, then the queue front, then a stored
pump error is thrown (note: the source does not clear `pumpError` here),
then the terminal null if the pump is closed, else park a waiter. -/
def readSdkMessage (w : Nat) (s : SessionState) : ReadOutcome × SessionState :=
  match s.queuedInitMessage with
  | some m => (.msg m, { s with queuedInitMessage := none })
  | none =>
    match s.messageQueue with
    | m :: rest => (.msg m, { s with messageQueue := rest })
    | [] =>
      match s.pumpError with
      | some e => (.threw e, s)
      | none =>
        if s.pumpClosed then (.closedNull, s)
        else (.parked w, { s with messageResolvers := s.messageResolvers ++ [w] })

/-- Discriminator for the frames intercepted by the pump before
translation. -/
def isCanUseToolRequest : WireMessage → Bool
  | .control_request _ r => r.subtype == "can_use_tool"
  | _ => false

/-- Discriminator for translated init messages. -/
def isInitMsg : SDKMessage → Bool
  | .init _ _ _ _ _ => true
  | _ => false

/-- Per-frame behaviour of `Session.pumpLoop`: `can_use_tool` control
requests are handled by the permission dispatch (which only writes to the
transport and toggles the barrier — it does not touch any of the fields in
`SessionState`); other frames are translated, init messages go through
`resolveInitMessage` then `queueInitMessage`, all other translated
messages are enqueued, and untranslatable frames are dropped. -/
def pumpStep (parse : String → Option Json) (s : SessionState) (w : WireMessage) :
    SessionState :=
  if isCanUseToolRequest w then s
  else
    match transformMessage parse w with
    | none => s
    | some m =>
        if isInitMsg m then queueInitMessage m (resolveInitMessage m s)
        else enqueueMessage m s

/-- How the pump's frame iteration ended: graceful end of stream, or a read
failure carrying the error recorded in the catch block. -/
inductive PumpEnd where
  | endOfStream
  | failure (e : String)

/-- The catch/finally tail of `Session.pumpLoop`: record a read failure in
`pumpError`, mark the pump closed, resolve all parked waiters with the
terminal null, and reject a still-pending init future. -/
def pumpFinish (ending : PumpEnd) (s : SessionState) : SessionState :=
  let s1 := match ending with
    | .endOfStream => s
    | .failure e => { s with pumpError := some e }
  rejectInitIfPending (resolveMessageReaders { s1 with pumpClosed := true })

/-- A full pump run: process the observed frames in order, then run the
termination tail. -/
def pumpRun (parse : String → Option Json) (frames : List WireMessage)
    (ending : PumpEnd) (s : SessionState) : SessionState :=
  pumpFinish ending (frames.foldl (pumpStep parse) s)

/-- A session state with empty queue, registry and logs, capacity `c`, the
pump running and the init future in state `f`. -/
def freshState (c : Int) (f : InitFutureState) : SessionState :=
  { messageQueue := []
    messageResolvers := []
    queuedInitMessage := none
    maxQueueSize := c
    droppedMessageCount := 0
    warnings := []
    pumpClosed := false
    pumpError := none
    initFuture := f
    pendingInitMessage := none
    deliveries := [] }

/-- A sequence of pump-side enqueues with no consumer draining. -/
def enqueueAll (msgs : List SDKMessage) (s : SessionState) : SessionState :=
  msgs.foldl (fun t m => enqueueMessage m t) s

/-- Concrete distinct sample messages m1..m5 for the eviction scenario. -/
def mEx (i : Nat) : SDKMessage := .assistant ("m" ++ toString i) ("uuid-" ++ toString i)

theorem dropLoop_lt (maxQ : Int) (hmax : 0 < maxQ) :
    ∀ (q : List SDKMessage) (d : Nat) (w : List String),
      (((dropLoop maxQ q d w).1.length : Int)) < maxQ := by
  intro q
  induction q with
  | nil =>
      intro d w
      simpa [dropLoop] using hmax
  | cons m rest ih =>
      intro d w
      rw [dropLoop]
      by_cases h : maxQ ≤ (((m :: rest).length : Int))
      · rw [if_pos h]
        exact ih _ _
      · rw [if_neg h]
        exact lt_of_not_le h

theorem dropLoop_noop (maxQ : Int) (q : List SDKMessage) (d : Nat) (w : List String)
    (h : ((q.length : Int)) < maxQ) : dropLoop maxQ q d w = (q, d, w) := by
  cases q with
  | nil => rfl
  | cons m rest => rw [dropLoop, if_neg (not_le_of_lt h)]

theorem dropLoop_one (maxQ : Int) (m : SDKMessage) (rest : List SDKMessage)
    (d : Nat) (w : List String) (h : (((m :: rest).length : Int)) = maxQ) :
    dropLoop maxQ (m :: rest) d w = (rest, d + 1, w ++ [warnText (d + 1)]) := by
  have hc : maxQ ≤ (((m :: rest).length : Int)) := le_of_eq h.symm
  have hrest : ((rest.length : Int)) < maxQ := by
    simp only [List.length_cons] at h
    omega
  rw [dropLoop, if_pos hc, dropLoop_noop _ _ _ _ hrest]

theorem dropOldestIfNeeded_resolvers (s : SessionState) :
    (dropOldestIfNeeded s).messageResolvers = s.messageResolvers := by
  unfold dropOldestIfNeeded
  split <;> simp

theorem dropOldestIfNeeded_max (s : SessionState) :
    (dropOldestIfNeeded s).maxQueueSize = s.maxQueueSize := by
  unfold dropOldestIfNeeded
  split <;> simp

theorem enqueueMessage_no_waiter (m : SDKMessage) (s : SessionState)
    (hr : s.messageResolvers = []) :
    enqueueMessage m s =
      { dropOldestIfNeeded s with
          messageQueue := (dropOldestIfNeeded s).messageQueue ++ [m] } := by
  unfold enqueueMessage
  rw [hr]

theorem enqueueMessage_resolvers_nil (m : SDKMessage) (s : SessionState)
    (hr : s.messageResolvers = []) :
    (enqueueMessage m s).messageResolvers = [] := by
  rw [enqueueMessage_no_waiter m s hr]
  simpa [dropOldestIfNeeded_resolvers] using hr

theorem enqueueMessage_max (m : SDKMessage) (s : SessionState)
    (hr : s.messageResolvers = []) :
    (enqueueMessage m s).maxQueueSize = s.maxQueueSize := by
  rw [enqueueMessage_no_waiter m s hr]
  simp [dropOldestIfNeeded_max]

theorem enqueueMessage_bound (m : SDKMessage) (s : SessionState)
    (hr : s.messageResolvers = []) (hmax : 0 < s.maxQueueSize) :
    (((enqueueMessage m s).messageQueue.length : Int)) ≤ s.maxQueueSize := by
  rw [enqueueMessage_no_waiter m s hr]
  have hq : (((dropOldestIfNeeded s).messageQueue.length : Int)) < s.maxQueueSize := by
    unfold dropOldestIfNeeded
    rw [if_neg (not_le_of_lt hmax)]
    exact dropLoop_lt s.maxQueueSize hmax s.messageQueue s.droppedMessageCount s.warnings
  simp only [List.length_append, List.length_cons, List.length_nil]
  push_cast
  omega

theorem enqueueAll_bound (msgs : List SDKMessage) :
    ∀ (s : SessionState), s.messageResolvers = [] → 0 < s.maxQueueSize →
      ((s.messageQueue.length : Int)) ≤ s.maxQueueSize →
      (((enqueueAll msgs s).messageQueue.length : Int)) ≤ s.maxQueueSize := by
  induction msgs with
  | nil => intro s _ _ hb; simpa [enqueueAll] using hb
  | cons m rest ih =>
      intro s hr hmax _
      have hr1 := enqueueMessage_resolvers_nil m s hr
      have hm1 := enqueueMessage_max m s hr
      have hb1 := enqueueMessage_bound m s hr hmax
      have := ih (enqueueMessage m s) hr1 (hm1 ▸ hmax) (hm1 ▸ hb1)
      simpa [enqueueAll, hm1] using this

theorem enqueueMessage_no_drop (m : SDKMessage) (s : SessionState)
    (hr : s.messageResolvers = [])
    (h : s.maxQueueSize ≤ 0 ∨ ((s.messageQueue.length : Int)) < s.maxQueueSize) :
    enqueueMessage m s = { s with messageQueue := s.messageQueue ++ [m] } := by
  rw [enqueueMessage_no_waiter m s hr]
  have hd : dropOldestIfNeeded s = s := by
    unfold dropOldestIfNeeded
    rcases h with h | h
    · rw [if_pos h]
    · split
      · rfl
      · simp [dropLoop_noop _ _ _ _ h]
  rw [hd]

theorem enqueueAll_no_cap (msgs : List SDKMessage) :
    ∀ (s : SessionState), s.messageResolvers = [] → s.maxQueueSize ≤ 0 →
      enqueueAll msgs s = { s with messageQueue := s.messageQueue ++ msgs } := by
  induction msgs with
  | nil => intro s _ _; simp [enqueueAll]
  | cons m rest ih =>
      intro s hr hc
      have h1 : enqueueMessage m s = { s with messageQueue := s.messageQueue ++ [m] } :=
        enqueueMessage_no_drop m s hr (Or.inl hc)
      have hr1 : (enqueueMessage m s).messageResolvers = [] := by rw [h1]; exact hr
      have hc1 : (enqueueMessage m s).maxQueueSize ≤ 0 := by rw [h1]; exact hc
      have := ih (enqueueMessage m s) hr1 hc1
      simp only [enqueueAll, List.foldl_cons] at *
      rw [this, h1]
      simp

theorem enqueueMessage_evict (m : SDKMessage) (s : SessionState)
    (hr : s.messageResolvers = []) (hmax : 0 < s.maxQueueSize)
    (hfull : ((s.messageQueue.length : Int)) = s.maxQueueSize) :
    enqueueMessage m s =
      { s with messageQueue := s.messageQueue.tail ++ [m],
               droppedMessageCount := s.droppedMessageCount + 1,
               warnings := s.warnings ++ [warnText (s.droppedMessageCount + 1)] } := by
  rw [enqueueMessage_no_waiter m s hr]
  cases hq : s.messageQueue with
  | nil =>
      exfalso
      rw [hq] at hfull
      simp at hfull
      omega
  | cons m0 rest =>
      have hd : dropOldestIfNeeded s =
          { s with messageQueue := rest,
                   droppedMessageCount := s.droppedMessageCount + 1,
                   warnings := s.warnings ++ [warnText (s.droppedMessageCount + 1)] } := by
        unfold dropOldestIfNeeded
        rw [if_neg (not_le_of_lt hmax), hq, dropLoop_one _ _ _ _ _ (hq ▸ hfull)]
      rw [hd]
      simp [hq]

/-- C2: the bounded delivery queue preserves insertion order and never
exceeds its capacity: with no waiter pending, when the capacity is
positive the queue length stays at or below capacity across any sequence
of enqueues; a full enqueue evicts the oldest entry, increments the
dropped count and emits the diagnostic with the cumulative count; a
non-positive capacity disables eviction; and with capacity 2 and m1..m5
enqueued with no consumer, the final queue is exactly the last two
messages, the dropped count is 3, and three diagnostics were emitted
carrying the running counts 1, 2, 3. -/
theorem bounded_queue_eviction :
    (∀ (msgs : List SDKMessage) (s : SessionState),
        s.messageResolvers = [] → 0 < s.maxQueueSize →
        ((s.messageQueue.length : Int)) ≤ s.maxQueueSize →
        (((enqueueAll msgs s).messageQueue.length : Int)) ≤ s.maxQueueSize) ∧
    (∀ (m : SDKMessage) (s : SessionState),
        s.messageResolvers = [] → 0 < s.maxQueueSize →
        ((s.messageQueue.length : Int)) = s.maxQueueSize →
        enqueueMessage m s =
          { s with messageQueue := s.messageQueue.tail ++ [m],
                   droppedMessageCount := s.droppedMessageCount + 1,
                   warnings := s.warnings ++ [warnText (s.droppedMessageCount + 1)] }) ∧
    (∀ (msgs : List SDKMessage) (s : SessionState),
        s.messageResolvers = [] → s.maxQueueSize ≤ 0 →
        enqueueAll msgs s = { s with messageQueue := s.messageQueue ++ msgs }) ∧
    (∀ n, warnText n =
      "[letta-code-sdk] Dropped queued message due to full queue. droppedMessageCount="
        ++ toString n) ∧
    ((enqueueAll [mEx 1, mEx 2, mEx 3, mEx 4, mEx 5] (freshState 2 .noPromise)).messageQueue
        = [mEx 4, mEx 5] ∧
     (enqueueAll [mEx 1, mEx 2, mEx 3, mEx 4, mEx 5]
        (freshState 2 .noPromise)).droppedMessageCount = 3 ∧
     (enqueueAll [mEx 1, mEx 2, mEx 3, mEx 4, mEx 5] (freshState 2 .noPromise)).warnings
        = [warnText 1, warnText 2, warnText 3]) :=
  ⟨enqueueAll_bound, enqueueMessage_evict, enqueueAll_no_cap, fun _ => rfl,
    rfl, rfl, rfl⟩

/-- Witness: the capacity bound applied at the concrete eviction scenario. -/
theorem bounded_queue_eviction_witness :
    (freshState 2 .noPromise).messageResolvers = [] ∧
    0 < (freshState 2 .noPromise).maxQueueSize ∧
    (((freshState 2 .noPromise).messageQueue.length : Int))
      ≤ (freshState 2 .noPromise).maxQueueSize ∧
    (((enqueueAll [mEx 1, mEx 2, mEx 3] (freshState 2 .noPromise)).messageQueue.length : Int))
      ≤ (freshState 2 .noPromise).maxQueueSize :=
  ⟨rfl, by decide, by decide,
    bounded_queue_eviction.1 [mEx 1, mEx 2, mEx 3] (freshState 2 .noPromise)
      rfl (by decide) (by decide)⟩

theorem enqueueMessage_waiter (m : SDKMessage) (s : SessionState) (w : Nat)
    (rest : List Nat) (hr : s.messageResolvers = w :: rest) :
    enqueueMessage m s =
      { s with messageResolvers := rest,
               deliveries := s.deliveries ++ [(w, some m)] } := by
  unfold enqueueMessage
  rw [hr]

theorem queueInitMessage_waiter (m : SDKMessage) (s : SessionState) (w : Nat)
    (rest : List Nat) (hr : s.messageResolvers = w :: rest) :
    queueInitMessage m s =
      { s with messageResolvers := rest,
               deliveries := s.deliveries ++ [(w, some m)] } := by
  unfold queueInitMessage
  rw [hr]

theorem queueInitMessage_no_waiter (m : SDKMessage) (s : SessionState)
    (hr : s.messageResolvers = []) :
    (queueInitMessage m s).messageResolvers = [] ∧
    (queueInitMessage m s).messageQueue = s.messageQueue ∧
    (queueInitMessage m s).deliveries = s.deliveries := by
  unfold queueInitMessage
  rw [hr]
  cases h : s.queuedInitMessage <;> simp [hr]

theorem readSdkMessage_initCache (w : Nat) (s : SessionState) (m : SDKMessage)
    (h : s.queuedInitMessage = some m) :
    readSdkMessage w s = (.msg m, { s with queuedInitMessage := none }) := by
  unfold readSdkMessage
  rw [h]

theorem readSdkMessage_queue (w : Nat) (s : SessionState) (m : SDKMessage)
    (rest : List SDKMessage) (h0 : s.queuedInitMessage = none)
    (h1 : s.messageQueue = m :: rest) :
    readSdkMessage w s = (.msg m, { s with messageQueue := rest }) := by
  unfold readSdkMessage
  rw [h0, h1]

theorem readSdkMessage_error (w : Nat) (s : SessionState) (e : String)
    (h0 : s.queuedInitMessage = none) (h1 : s.messageQueue = [])
    (h2 : s.pumpError = some e) :
    readSdkMessage w s = (.threw e, s) := by
  unfold readSdkMessage
  rw [h0, h1, h2]

theorem readSdkMessage_closed (w : Nat) (s : SessionState)
    (h0 : s.queuedInitMessage = none) (h1 : s.messageQueue = [])
    (h2 : s.pumpError = none) (h3 : s.pumpClosed = true) :
    readSdkMessage w s = (.closedNull, s) := by
  unfold readSdkMessage
  rw [h0, h1, h2, if_pos h3]

theorem readSdkMessage_park (w : Nat) (s : SessionState)
    (h0 : s.queuedInitMessage = none) (h1 : s.messageQueue = [])
    (h2 : s.pumpError = none) (h3 : s.pumpClosed = false) :
    readSdkMessage w s =
      (.parked w, { s with messageResolvers := s.messageResolvers ++ [w] }) := by
  unfold readSdkMessage
  rw [h0, h1, h2, h3]
  simp

theorem rejectInitIfPending_fields (s : SessionState) :
    (rejectInitIfPending s).messageResolvers = s.messageResolvers ∧
    (rejectInitIfPending s).messageQueue = s.messageQueue ∧
    (rejectInitIfPending s).pumpError = s.pumpError ∧
    (rejectInitIfPending s).pumpClosed = s.pumpClosed ∧
    (rejectInitIfPending s).queuedInitMessage = s.queuedInitMessage ∧
    (rejectInitIfPending s).deliveries = s.deliveries := by
  unfold rejectInitIfPending
  split <;> simp

theorem pumpFinish_resolvers (ending : PumpEnd) (s : SessionState) :
    (pumpFinish ending s).messageResolvers = [] := by
  unfold pumpFinish
  rw [(rejectInitIfPending_fields _).1]
  cases ending <;> simp [resolveMessageReaders]

/-- The mutual-exclusion invariant of the waiter registry and the queue:
a waiter is parked only when there is nothing it could be handed. -/
def waiterQueueExclusive (s : SessionState) : Prop :=
  s.messageResolvers ≠ [] → s.messageQueue = []

/-- One operation on the delivery queue: a pump-side enqueue of a regular
message, a pump-side init delivery, a consumer pull, or pump termination. -/
inductive QOp where
  | deliverOp (m : SDKMessage)
  | initOp (m : SDKMessage)
  | pullOp (w : Nat)
  | closeOp (ending : PumpEnd)

def applyQOp (s : SessionState) : QOp → SessionState
  | .deliverOp m => enqueueMessage m s
  | .initOp m => queueInitMessage m s
  | .pullOp w => (readSdkMessage w s).2
  | .closeOp e => pumpFinish e s

def runQOps (s : SessionState) (ops : List QOp) : SessionState :=
  ops.foldl applyQOp s

theorem applyQOp_exclusive (s : SessionState) (op : QOp)
    (h : waiterQueueExclusive s) : waiterQueueExclusive (applyQOp s op) := by
  cases op with
  | deliverOp m =>
      cases hr : s.messageResolvers with
      | nil =>
          intro hne
          exact absurd (enqueueMessage_resolvers_nil m s hr) hne
      | cons w rest =>
          rw [show applyQOp s (.deliverOp m) = enqueueMessage m s from rfl,
            enqueueMessage_waiter m s w rest hr]
          intro _
          exact h (by rw [hr]; simp)
  | initOp m =>
      cases hr : s.messageResolvers with
      | nil =>
          intro hne
          exact absurd (queueInitMessage_no_waiter m s hr).1 hne
      | cons w rest =>
          rw [show applyQOp s (.initOp m) = queueInitMessage m s from rfl,
            queueInitMessage_waiter m s w rest hr]
          intro _
          exact h (by rw [hr]; simp)
  | pullOp w =>
      show waiterQueueExclusive (readSdkMessage w s).2
      cases h0 : s.queuedInitMessage with
      | some m =>
          rw [readSdkMessage_initCache w s m h0]
          intro hne
          exact h hne
      | none =>
          cases h1 : s.messageQueue with
          | cons m rest =>
              rw [readSdkMessage_queue w s m rest h0 h1]
              intro hne
              exact absurd (h hne) (by rw [h1]; simp)
          | nil =>
              cases h2 : s.pumpError with
              | some e =>
                  rw [readSdkMessage_error w s e h0 h1 h2]
                  intro hne
                  exact h hne
              | none =>
                  cases h3 : s.pumpClosed with
                  | true =>
                      rw [readSdkMessage_closed w s h0 h1 h2 h3]
                      intro hne
                      exact h hne
                  | false =>
                      rw [readSdkMessage_park w s h0 h1 h2 h3]
                      intro _
                      exact h1
  | closeOp e =>
      intro hne
      exact absurd (pumpFinish_resolvers e s) hne

/-- C3: waiter/queue mutual exclusion — starting from any state where a
parked waiter implies an empty queue, every sequence of enqueue, init
delivery, pull and pump-close operations preserves that invariant; every
enqueue with a parked waiter satisfies the oldest waiter directly and
leaves the queue untouched; and a pull parks a new waiter only when the
init cache and the queue are both empty. -/
theorem waiter_queue_exclusion :
    (∀ (ops : List QOp) (s : SessionState), waiterQueueExclusive s →
        waiterQueueExclusive (runQOps s ops)) ∧
    (∀ (m : SDKMessage) (s : SessionState) (w : Nat) (rest : List Nat),
        s.messageResolvers = w :: rest →
        enqueueMessage m s =
          { s with messageResolvers := rest,
                   deliveries := s.deliveries ++ [(w, some m)] }) ∧
    (∀ (w : Nat) (s : SessionState),
        (readSdkMessage w s).1 = .parked w →
        s.messageQueue = [] ∧ s.queuedInitMessage = none ∧
        (readSdkMessage w s).2.messageResolvers = s.messageResolvers ++ [w]) := by
  refine ⟨?_, enqueueMessage_waiter, ?_⟩
  · intro ops
    induction ops with
    | nil => intro s h; exact h
    | cons op rest ih =>
        intro s h
        exact ih _ (applyQOp_exclusive s op h)
  · intro w s hp
    cases h0 : s.queuedInitMessage with
    | some m => rw [readSdkMessage_initCache w s m h0] at hp; cases hp
    | none =>
      cases h1 : s.messageQueue with
      | cons m rest => rw [readSdkMessage_queue w s m rest h0 h1] at hp; cases hp
      | nil =>
        cases h2 : s.pumpError with
        | some e => rw [readSdkMessage_error w s e h0 h1 h2] at hp; cases hp
        | none =>
          cases h3 : s.pumpClosed with
          | true => rw [readSdkMessage_closed w s h0 h1 h2 h3] at hp; cases hp
          | false =>
              refine ⟨rfl, rfl, ?_⟩
              rw [readSdkMessage_park w s h0 h1 h2 h3]

/-- Witness: the invariant preserved across a concrete operation sequence
that parks a waiter and then enqueues past it. -/
theorem waiter_queue_exclusion_witness :
    waiterQueueExclusive (freshState 2 .noPromise) ∧
    waiterQueueExclusive
      (runQOps (freshState 2 .noPromise)
        [.pullOp 0, .deliverOp (mEx 1), .deliverOp (mEx 2)]) :=
  ⟨fun h => absurd rfl h,
    waiter_queue_exclusion.1 [.pullOp 0, .deliverOp (mEx 1), .deliverOp (mEx 2)]
      (freshState 2 .noPromise) (fun h => absurd rfl h)⟩

/-- Discriminator for init-shaped wire frames: a `system` frame with
subtype `init`. -/
def isInitFrame : WireMessage → Bool
  | .system subtype _ _ _ _ _ => subtype == "init"
  | _ => false

theorem transformMessage_not_init (parse : String → Option Json) (w : WireMessage)
    (hw : isInitFrame w = false) (m : SDKMessage)
    (hm : transformMessage parse w = some m) : isInitMsg m = false := by
  cases w with
  | system subtype a b c d tools =>
      have hw2 : (subtype == "init") = false := hw
      simp only [transformMessage, hw2, Bool.false_eq_true, if_false] at hm
      exact Option.noConfusion hm
  | message mt uuid content tc tcs tcid tret status reasoning =>
      simp only [transformMessage] at hm
      split at hm
      · cases hm; rfl
      · split at hm
        · split at hm
          · cases hm; rfl
          · cases hm
        · split at hm
          · cases hm; rfl
          · split at hm
            · cases hm; rfl
            · cases hm
  | stream_event ev uuid =>
      simp only [transformMessage] at hm
      cases hm; rfl
  | result subtype res dur cost conv =>
      simp only [transformMessage] at hm
      cases hm; rfl
  | control_request rid req =>
      simp only [transformMessage] at hm
      exact Option.noConfusion hm
  | control_response =>
      simp only [transformMessage] at hm
      exact Option.noConfusion hm
  | otherFrame =>
      simp only [transformMessage] at hm
      exact Option.noConfusion hm

theorem dropOldestIfNeeded_initFuture (s : SessionState) :
    (dropOldestIfNeeded s).initFuture = s.initFuture := by
  unfold dropOldestIfNeeded
  split <;> simp

theorem enqueueMessage_initFuture (m : SDKMessage) (s : SessionState) :
    (enqueueMessage m s).initFuture = s.initFuture := by
  unfold enqueueMessage
  cases hr : s.messageResolvers <;> simp [dropOldestIfNeeded_initFuture]

theorem pumpStep_initFuture (parse : String → Option Json) (s : SessionState)
    (w : WireMessage) (hw : isInitFrame w = false) :
    (pumpStep parse s w).initFuture = s.initFuture := by
  unfold pumpStep
  cases hc : isCanUseToolRequest w with
  | true => simp
  | false =>
      simp only [Bool.false_eq_true, if_false]
      cases hm : transformMessage parse w with
      | none => rfl
      | some m =>
          have hni := transformMessage_not_init parse w hw m hm
          show (if isInitMsg m = true then queueInitMessage m (resolveInitMessage m s)
                else enqueueMessage m s).initFuture = s.initFuture
          rw [hni]
          simpa using enqueueMessage_initFuture m s

theorem pumpFold_initFuture (parse : String → Option Json) (frames : List WireMessage) :
    ∀ (s : SessionState), (∀ w ∈ frames, isInitFrame w = false) →
      (frames.foldl (pumpStep parse) s).initFuture = s.initFuture := by
  induction frames with
  | nil => intro s _; rfl
  | cons w rest ih =>
      intro s hall
      have h1 := pumpStep_initFuture parse s w (hall w (by simp))
      have h2 := ih (pumpStep parse s w) (fun x hx => hall x (by simp [hx]))
      simp only [List.foldl_cons]
      rw [h2, h1]

theorem pumpFinish_init_rejected (ending : PumpEnd) (t : SessionState)
    (h : t.initFuture = .pending) :
    (pumpFinish ending t).initFuture = .rejectedWith noInitError := by
  unfold pumpFinish rejectInitIfPending resolveMessageReaders
  cases ending <;> simp [h]

theorem pumpFinish_closed (ending : PumpEnd) (t : SessionState) :
    (pumpFinish ending t).pumpClosed = true := by
  unfold pumpFinish
  rw [(rejectInitIfPending_fields _).2.2.2.1]
  cases ending <;> rfl

theorem pumpFinish_pumpError_failure (e : String) (t : SessionState) :
    (pumpFinish (.failure e) t).pumpError = some e := by
  unfold pumpFinish
  rw [(rejectInitIfPending_fields _).2.2.1]
  rfl

theorem pumpFinish_deliveries (ending : PumpEnd) (t : SessionState) :
    (pumpFinish ending t).deliveries
      = t.deliveries ++ t.messageResolvers.map (fun w => (w, none)) := by
  unfold pumpFinish
  rw [(rejectInitIfPending_fields _).2.2.2.2.2]
  cases ending <;> rfl

/-- C4: for every transport whose frame sequence ends (end of stream or
read failure) without any init-shaped frame, the pump's termination tail
rejects a pending init future with the explicit no-init error, so a
pending `initialize()` call resumes with that error instead of hanging. -/
theorem no_init_rejection (parse : String → Option Json) (frames : List WireMessage)
    (ending : PumpEnd) (s : SessionState) (hp : s.initFuture = .pending)
    (hnoinit : ∀ w ∈ frames, isInitFrame w = false) :
    (pumpRun parse frames ending s).initFuture =
      .rejectedWith "Failed to initialize session - no init message received" ∧
    (pumpRun parse frames ending s).pumpClosed = true := by
  have hmid : (frames.foldl (pumpStep parse) s).initFuture = .pending := by
    rw [pumpFold_initFuture parse frames s hnoinit, hp]
  exact ⟨pumpFinish_init_rejected ending _ hmid, pumpFinish_closed ending _⟩

/-- Witness: a transport producing a single assistant frame and then
closing leaves a rejected init future. -/
theorem no_init_rejection_witness :
    (freshState 1000 .pending).initFuture = .pending ∧
    (∀ w ∈ [WireMessage.message "assistant_message" "u1" (some "hi")
        none none none none none none], isInitFrame w = false) ∧
    (pumpRun (fun _ => none)
        [WireMessage.message "assistant_message" "u1" (some "hi") none none none none none none]
        .endOfStream (freshState 1000 .pending)).initFuture =
      .rejectedWith "Failed to initialize session - no init message received" :=
  ⟨rfl, by intro w hw; rw [List.mem_singleton] at hw; subst hw; rfl,
    (no_init_rejection (fun _ => none) _ .endOfStream (freshState 1000 .pending) rfl
      (by intro w hw; rw [List.mem_singleton] at hw; subst hw; rfl)).1⟩

/-- C6 (amended): after a transport failure the pump records the error,
resolves every parked waiter with the terminal null signal and clears the
registry; the stored error is then thrown on the next pull with the init
cache and queue empty — but it is NOT consumed: the state is unchanged by
the throwing pull, so every subsequent pull throws the same error again. -/
theorem transport_failure_error_persists (parse : String → Option Json)
    (frames : List WireMessage) (e : String) (s : SessionState) :
    (pumpRun parse frames (.failure e) s).pumpError = some e ∧
    (pumpRun parse frames (.failure e) s).messageResolvers = [] ∧
    (pumpRun parse frames (.failure e) s).deliveries
      = (frames.foldl (pumpStep parse) s).deliveries
        ++ (frames.foldl (pumpStep parse) s).messageResolvers.map (fun w => (w, none)) ∧
    (∀ (w1 w2 : Nat),
      (pumpRun parse frames (.failure e) s).queuedInitMessage = none →
      (pumpRun parse frames (.failure e) s).messageQueue = [] →
      readSdkMessage w1 (pumpRun parse frames (.failure e) s)
          = (.threw e, pumpRun parse frames (.failure e) s) ∧
      readSdkMessage w2 (readSdkMessage w1 (pumpRun parse frames (.failure e) s)).2
          = (.threw e, pumpRun parse frames (.failure e) s)) := by
  refine ⟨pumpFinish_pumpError_failure e _, pumpFinish_resolvers _ _,
    pumpFinish_deliveries _ _, ?_⟩
  intro w1 w2 h0 h1
  have hE : (pumpRun parse frames (.failure e) s).pumpError = some e :=
    pumpFinish_pumpError_failure e _
  have hr1 := readSdkMessage_error w1 _ e h0 h1 hE
  refine ⟨hr1, ?_⟩
  rw [hr1]
  exact readSdkMessage_error w2 _ e h0 h1 hE

/-- Witness: a failing empty transport, with both pulls throwing. -/
theorem transport_failure_error_persists_witness :
    (pumpRun (fun _ => none) [] (.failure "boom") (freshState 1000 .noPromise)).queuedInitMessage
        = none ∧
    (pumpRun (fun _ => none) [] (.failure "boom") (freshState 1000 .noPromise)).messageQueue
        = [] ∧
    readSdkMessage 0 (pumpRun (fun _ => none) [] (.failure "boom") (freshState 1000 .noPromise))
        = (.threw "boom",
           pumpRun (fun _ => none) [] (.failure "boom") (freshState 1000 .noPromise)) :=
  ⟨rfl, rfl,
    ((transport_failure_error_persists (fun _ => none) [] "boom"
        (freshState 1000 .noPromise)).2.2.2 0 1 rfl rfl).1⟩

/-- The post-failure state used by the counterexample below. -/
def failedStateEx : SessionState :=
  pumpRun (fun _ => none) [] (.failure "boom") (freshState 1000 .noPromise)

/-- C6 counterexample: the claim says at most one pull throws the stored
error and subsequent pulls return the terminal end-of-stream signal; in
fact the error is never cleared, so the second pull throws the same error
again instead of returning the terminal null. -/
theorem pump_error_not_consumed_cex :
    (readSdkMessage 0 failedStateEx).1 = .threw "boom" ∧
    (readSdkMessage 1 (readSdkMessage 0 failedStateEx).2).1 = .threw "boom" ∧
    (readSdkMessage 1 (readSdkMessage 0 failedStateEx).2).1 ≠ .closedNull :=
  ⟨rfl, rfl, fun h => nomatch h⟩

theorem resolveInitMessage_queue (m : SDKMessage) (s : SessionState) :
    (resolveInitMessage m s).messageQueue = s.messageQueue ∧
    (resolveInitMessage m s).messageResolvers = s.messageResolvers := by
  unfold resolveInitMessage
  split <;> simp

theorem queueInitMessage_queue (m : SDKMessage) (s : SessionState) :
    (queueInitMessage m s).messageQueue = s.messageQueue := by
  unfold queueInitMessage
  cases hr : s.messageResolvers with
  | nil => cases h : s.queuedInitMessage <;> simp
  | cons w rest => simp

/-- C7 (amended): an init message observed by the pump is never appended to
the general message queue — when no general waiter is parked it is
delivered only via the dedicated init future (resolution or the
pending-init stash) and the dedicated `queuedInitMessage` cache — but when
a general waiter IS parked, `queueInitMessage` hands the init message to
the oldest parked waiter of the general delivery queue. -/
theorem init_delivery_amended (s : SessionState) (m : SDKMessage) :
    (queueInitMessage m s).messageQueue = s.messageQueue ∧
    (resolveInitMessage m s).messageQueue = s.messageQueue ∧
    (∀ (parse : String → Option Json) (a b c d : String) (tools : List String),
        (pumpStep parse s (.system "init" a b c d tools)).messageQueue
          = s.messageQueue) ∧
    (s.messageResolvers = [] →
        (queueInitMessage m s).deliveries = s.deliveries ∧
        (s.queuedInitMessage = none →
          (queueInitMessage m s).queuedInitMessage = some m) ∧
        (∀ m0, s.queuedInitMessage = some m0 → queueInitMessage m s = s)) ∧
    (∀ w rest, s.messageResolvers = w :: rest →
        queueInitMessage m s =
          { s with messageResolvers := rest,
                   deliveries := s.deliveries ++ [(w, some m)] }) := by
  refine ⟨queueInitMessage_queue m s, (resolveInitMessage_queue m s).1, ?_, ?_, ?_⟩
  · intro parse a b c d tools
    show (queueInitMessage (.init a b c d tools)
        (resolveInitMessage (.init a b c d tools) s)).messageQueue = s.messageQueue
    rw [queueInitMessage_queue, (resolveInitMessage_queue _ s).1]
  · intro hr
    refine ⟨(queueInitMessage_no_waiter m s hr).2.2, ?_, ?_⟩
    · intro h0
      unfold queueInitMessage
      rw [hr, h0]
    · intro m0 h0
      unfold queueInitMessage
      rw [hr, h0]
  · exact fun w rest hr => queueInitMessage_waiter m s w rest hr

/-- Witness: with no waiter parked and an empty cache, the init message
lands in the dedicated cache. -/
theorem init_delivery_amended_witness :
    (freshState 1000 .pending).messageResolvers = [] ∧
    (freshState 1000 .pending).queuedInitMessage = none ∧
    (queueInitMessage (SDKMessage.init "a" "s" "c" "m" [])
        (freshState 1000 .pending)).queuedInitMessage
      = some (SDKMessage.init "a" "s" "c" "m" []) :=
  ⟨rfl, rfl,
    ((init_delivery_amended (freshState 1000 .pending)
        (SDKMessage.init "a" "s" "c" "m" [])).2.2.2.1 rfl).2.1 rfl⟩

/-- The init frame and init message of the counterexample. -/
def initFrameEx : WireMessage := .system "init" "agent-1" "session-1" "conv-1" "model-1" []

/-- The translated init message of the counterexample. -/
def initMsgEx : SDKMessage := .init "agent-1" "session-1" "conv-1" "model-1" []

/-- A session state with waiter 7 parked on the general delivery queue. -/
def parkedStateEx : SessionState := (readSdkMessage 7 (freshState 1000 .pending)).2

/-- C7 counterexample: the claim says a translated init message is never
delivered by satisfying a waiter of the general delivery queue; but with
waiter 7 parked, the pump's handling of an init frame resolves exactly
that waiter with the init message (and does not use the dedicated cache). -/
theorem init_satisfies_general_waiter_cex :
    parkedStateEx.messageResolvers = [7] ∧
    (pumpStep (fun _ => none) parkedStateEx initFrameEx).messageResolvers = [] ∧
    (pumpStep (fun _ => none) parkedStateEx initFrameEx).deliveries
      = [(7, some initMsgEx)] ∧
    (pumpStep (fun _ => none) parkedStateEx initFrameEx).queuedInitMessage = none :=
  ⟨rfl, rfl, rfl, rfl⟩

/-- Iterated pulls: perform `n` pulls in sequence, collecting outcomes. -/
def pullN : Nat → SessionState → List ReadOutcome × SessionState
  | 0, s => ([], s)
  | n + 1, s =>
      let r := readSdkMessage 0 s
      let rest := pullN n r.2
      (r.1 :: rest.1, rest.2)

theorem pullN_drains (q : List SDKMessage) :
    ∀ (s : SessionState), s.queuedInitMessage = none → s.messageQueue = q →
      ∀ e, s.pumpError = some e →
      (pullN (q.length + 1) s).1 = q.map ReadOutcome.msg ++ [.threw e] := by
  induction q with
  | nil =>
      intro s h0 h1 e h2
      simp [pullN, readSdkMessage_error 0 s e h0 h1 h2]
  | cons m rest ih =>
      intro s h0 h1 e h2
      have hr := readSdkMessage_queue 0 s m rest h0 h1
      have hrec := ih { s with messageQueue := rest } h0 rfl e h2
      have hstep : (pullN ((m :: rest).length + 1) s).1
          = (readSdkMessage 0 s).1 :: (pullN (rest.length + 1) (readSdkMessage 0 s).2).1 := rfl
      rw [hstep, hr]
      simpa using hrec

/-- C10: every pull resolves by a fixed priority — cached init message
first, then the queue front, then a stored pump error is thrown (only with
both empty), then the terminal null (only with additionally no stored
error and the pump closed), else a waiter is parked; and queued messages
present when the pump failed are fully drained, in order, before the
stored error surfaces. -/
theorem read_priority_order :
    (∀ (w : Nat) (s : SessionState) (m : SDKMessage), s.queuedInitMessage = some m →
        readSdkMessage w s = (.msg m, { s with queuedInitMessage := none })) ∧
    (∀ (w : Nat) (s : SessionState) (m : SDKMessage) (rest : List SDKMessage),
        s.queuedInitMessage = none → s.messageQueue = m :: rest →
        readSdkMessage w s = (.msg m, { s with messageQueue := rest })) ∧
    (∀ (w : Nat) (s : SessionState) (e : String),
        s.queuedInitMessage = none → s.messageQueue = [] → s.pumpError = some e →
        readSdkMessage w s = (.threw e, s)) ∧
    (∀ (w : Nat) (s : SessionState),
        s.queuedInitMessage = none → s.messageQueue = [] → s.pumpError = none →
        s.pumpClosed = true → readSdkMessage w s = (.closedNull, s)) ∧
    (∀ (w : Nat) (s : SessionState),
        s.queuedInitMessage = none → s.messageQueue = [] → s.pumpError = none →
        s.pumpClosed = false →
        readSdkMessage w s =
          (.parked w, { s with messageResolvers := s.messageResolvers ++ [w] })) ∧
    (∀ (s : SessionState) (e : String), s.queuedInitMessage = none →
        s.pumpError = some e →
        (pullN (s.messageQueue.length + 1) s).1
          = s.messageQueue.map ReadOutcome.msg ++ [.threw e]) :=
  ⟨readSdkMessage_initCache, readSdkMessage_queue, readSdkMessage_error,
    readSdkMessage_closed, readSdkMessage_park,
    fun s e h0 h2 => pullN_drains s.messageQueue s h0 rfl e h2⟩

/-- Witness: a state holding one queued message and a stored error drains
the message before throwing. -/
theorem read_priority_order_witness :
    ({ freshState 5 .noPromise with
        messageQueue := [mEx 1], pumpError := some "e1",
        pumpClosed := true } : SessionState).queuedInitMessage = none ∧
    ({ freshState 5 .noPromise with
        messageQueue := [mEx 1], pumpError := some "e1",
        pumpClosed := true } : SessionState).pumpError = some "e1" ∧
    (pullN 2 { freshState 5 .noPromise with
        messageQueue := [mEx 1], pumpError := some "e1", pumpClosed := true }).1
      = [.msg (mEx 1), .threw "e1"] :=
  ⟨rfl, rfl,
    read_priority_order.2.2.2.2.2
      { freshState 5 .noPromise with
          messageQueue := [mEx 1], pumpError := some "e1", pumpClosed := true }
      "e1" rfl rfl⟩

/-- The value a configured `canUseTool` callback resolves to: a behavior
string plus the optional updated input and optional message fields the
handler reads. -/
structure CallbackResult where
  behavior : String
  updatedInput : Option Json
  message : Option String

/-- One run of a configured callback: it either resolved to a result or
threw (with `some msg` for an `Error` carrying a message, `none` for a
non-`Error` throwable). -/
inductive CallbackOutcome where
  | ok (r : CallbackResult)
  | threw (errMessage : Option String)

/-- The control-response payload: allow with optional updated input and a
permission list, or deny with a message and the interrupt flag. -/
inductive CanUseToolResponse where
  | allow (updatedInput : Option Json) (updatedPermissions : List String)
  | deny (message : String) (interrupt : Bool)

/-- The decision step of `Session.handleCanUseTool`: bypass mode wins
unconditionally; else a configured callback's allow result is forwarded,
everything else (including a throw) becomes a deny; with no callback the
fixed default-deny is produced. `callback = none` models "no callback
configured"; `callback = some o` models a configured callback whose run
produced outcome `o`. -/
def decideCanUseTool (permissionMode : String) (callback : Option CallbackOutcome) :
    CanUseToolResponse :=
  if permissionMode == "bypassPermissions" then
    .allow none []
  else
    match callback with
    | some (.ok r) =>
        if r.behavior == "allow" then .allow r.updatedInput []
        else .deny (r.message.getD "Denied by canUseTool callback") false
    | some (.threw e) => .deny (e.getD "Callback error") false
    | none => .deny "No canUseTool callback registered" false

/-- The control-response frame written back to the transport by
`handleCanUseTool`. -/
structure ControlResponseWrite where
  request_id : String
  subtype : String
  response : CanUseToolResponse

/-- The transport writes performed by `handleCanUseTool` for one
`can_use_tool` request: exactly one success control response carrying the
decision. -/
def handleCanUseToolWrites (permissionMode : String) (callback : Option CallbackOutcome)
    (requestId : String) : List ControlResponseWrite :=
  [⟨requestId, "success", decideCanUseTool permissionMode callback⟩]

/-- C5: the permission decision is a total case analysis — bypass mode
yields allow with null updated input and empty permissions regardless of
any configured callback; otherwise a configured callback's allow is
forwarded with its optional updated input, any other result or a throw
yields deny with the callback's message, the exception's message, or the
generic fallback; with no callback the fixed default-deny message is used;
and in every case exactly one control response is written. -/
theorem can_use_tool_decision_total (mode : String) (cb : Option CallbackOutcome)
    (requestId : String) :
    (mode = "bypassPermissions" → decideCanUseTool mode cb =
        .allow none []) ∧
    (mode ≠ "bypassPermissions" →
      (∀ r, cb = some (.ok r) → r.behavior = "allow" →
          decideCanUseTool mode cb = .allow r.updatedInput []) ∧
      (∀ r, cb = some (.ok r) → r.behavior ≠ "allow" →
          decideCanUseTool mode cb =
            .deny (r.message.getD "Denied by canUseTool callback") false) ∧
      (∀ e, cb = some (.threw e) →
          decideCanUseTool mode cb = .deny (e.getD "Callback error") false) ∧
      (cb = none →
          decideCanUseTool mode cb = .deny "No canUseTool callback registered" false)) ∧
    handleCanUseToolWrites mode cb requestId
      = [⟨requestId, "success", decideCanUseTool mode cb⟩] := by
  refine ⟨?_, ?_, rfl⟩
  · intro hm
    simp [decideCanUseTool, hm]
  · intro hm
    have hm2 : (mode == "bypassPermissions") = false := by
      simpa using hm
    refine ⟨?_, ?_, ?_, ?_⟩
    · intro r hr hb
      simp [decideCanUseTool, hm2, hr, hb]
    · intro r hr hb
      have hb2 : (r.behavior == "allow") = false := by simpa using hb
      simp [decideCanUseTool, hm2, hr, hb2]
    · intro e he
      simp [decideCanUseTool, hm2, he]
    · intro hc
      simp [decideCanUseTool, hm2, hc]

/-- Witness: bypass mode overrides a configured denying callback. -/
theorem can_use_tool_decision_total_witness :
    "bypassPermissions" = "bypassPermissions" ∧
    decideCanUseTool "bypassPermissions"
        (some (.ok ⟨"deny", none, some "nope"⟩)) = .allow none [] :=
  ⟨rfl, (can_use_tool_decision_total "bypassPermissions"
      (some (.ok ⟨"deny", none, some "nope"⟩)) "req-1").1 rfl⟩

/-- The effects `initialize()` performs before awaiting the init future:
transport connect, pump start, and the initialize control-request write. -/
inductive InitEffect where
  | connectTransport
  | startPumpEffect
  | writeControlRequest (request_id : String) (subtype : String)

/-- The fields of the init message the facade stores. -/
structure InitMsgData where
  agentId : String
  sessionId : String
  conversationId : String
  model : String
  tools : List String

/-- The facade-level state `initialize()` guards on and updates. -/
structure FacadeState where
  initialized : Bool
  pumpRunning : Bool
  agentId : Option String
  sessionId : Option String
  conversationId : Option String

/-- A run of `Session.initialize()` (pump variant): the already-initialized
guard fires before any effect; otherwise the transport is connected, the
pump started, the initialize control request written, and the awaited init
outcome (resolution or rejection of the init future, supplied as
`outcome`) either sets the identity triple and the initialized flag or
propagates the rejection. Returns the effects performed plus the result. -/
def initializeRun (s : FacadeState) (outcome : Except String InitMsgData) :
    List InitEffect × Except String (FacadeState × InitMsgData) :=
  if s.initialized then ([], .error "Session already initialized")
  else
    ([.connectTransport, .startPumpEffect, .writeControlRequest "init_1" "initialize"],
     match outcome with
     | .error e => .error e
     | .ok m =>
        .ok ({ s with initialized := true, pumpRunning := true,
                      agentId := some m.agentId, sessionId := some m.sessionId,
                      conversationId := some m.conversationId }, m))

/-- C8: init exactly-once — on an already-initialized session a call to
`initialize()` fails with the explicit already-initialized error and
performs no effect (no transport connect, no pump start, no control
request write); in particular after one successful call the second call
fails this way. -/
theorem initialize_exactly_once :
    (∀ (s : FacadeState) (o : Except String InitMsgData), s.initialized = true →
        initializeRun s o = ([], .error "Session already initialized")) ∧
    (∀ (s : FacadeState) (m : InitMsgData) (o2 : Except String InitMsgData),
        s.initialized = false →
        ∃ s2, (initializeRun s (.ok m)).2 = .ok (s2, m) ∧ s2.initialized = true ∧
          initializeRun s2 o2 = ([], .error "Session already initialized")) := by
  constructor
  · intro s o h
    simp [initializeRun, h]
  · intro s m o2 h
    refine ⟨{ s with initialized := true, pumpRunning := true,
                     agentId := some m.agentId, sessionId := some m.sessionId,
                     conversationId := some m.conversationId }, ?_, rfl, ?_⟩
    · simp [initializeRun, h]
    · simp [initializeRun]

/-- Witness: a fresh facade initialized once rejects the second call. -/
theorem initialize_exactly_once_witness :
    (⟨false, false, none, none, none⟩ : FacadeState).initialized = false ∧
    ∃ s2, (initializeRun ⟨false, false, none, none, none⟩
        (.ok ⟨"a", "s", "c", "m", []⟩)).2 = .ok (s2, ⟨"a", "s", "c", "m", []⟩) ∧
      s2.initialized = true ∧
      initializeRun s2 (.ok ⟨"a", "s", "c", "m", []⟩)
        = ([], .error "Session already initialized") :=
  ⟨rfl, initialize_exactly_once.2 ⟨false, false, none, none, none⟩
      ⟨"a", "s", "c", "m", []⟩ (.ok ⟨"a", "s", "c", "m", []⟩) rfl⟩

/-- C9: tool-call translation is total and never throws — the first
element of a non-empty `tool_calls` array wins, else the singular
`tool_call` field is used; the argument string is parsed via the oracle
and an unparseable string degrades to an object with a single `raw` field
holding the original string; a frame with neither source of a tool call
translates to `none`. -/
theorem tool_call_translation_total (parse : String → Option Json) (uuid : String)
    (content : Option String) (tc : Option ToolCallData)
    (tcs : Option (List ToolCallData)) (tcid tret status reasoning : Option String) :
    (∀ t rest, tcs = some (t :: rest) →
        transformMessage parse
          (.message "tool_call_message" uuid content tc tcs tcid tret status reasoning)
          = some (.tool_call t.tool_call_id t.name (parseToolInput parse t.arguments) uuid)) ∧
    ((tcs = none ∨ tcs = some []) → ∀ t, tc = some t →
        transformMessage parse
          (.message "tool_call_message" uuid content tc tcs tcid tret status reasoning)
          = some (.tool_call t.tool_call_id t.name (parseToolInput parse t.arguments) uuid)) ∧
    ((tcs = none ∨ tcs = some []) → tc = none →
        transformMessage parse
          (.message "tool_call_message" uuid content tc tcs tcid tret status reasoning)
          = none) ∧
    (∀ args, parse args = none →
        parseToolInput parse args = Json.obj [("raw", Json.str args)]) ∧
    (∀ args j, parse args = some j → parseToolInput parse args = j) := by
  refine ⟨?_, ?_, ?_, ?_, ?_⟩
  · intro t rest hts
    simp [transformMessage, truthyStr, firstToolCall, hts]
  · intro hts t htc
    rcases hts with h | h <;>
      simp [transformMessage, truthyStr, firstToolCall, h, htc]
  · intro hts htc
    rcases hts with h | h <;>
      simp [transformMessage, truthyStr, firstToolCall, h, htc]
  · intro args h
    simp [parseToolInput, h]
  · intro args j h
    simp [parseToolInput, h]

/-- Witness: an unparseable argument string still yields a tool-call
message with the raw fallback input. -/
theorem tool_call_translation_total_witness :
    (some [(⟨"Bash", "oops", "id9"⟩ : ToolCallData)]
        = some [(⟨"Bash", "oops", "id9"⟩ : ToolCallData)]) ∧
    transformMessage (fun _ => none)
        (.message "tool_call_message" "u9" none none
          (some [⟨"Bash", "oops", "id9"⟩]) none none none none)
      = some (.tool_call "id9" "Bash"
          (parseToolInput (fun _ => none) "oops") "u9") :=
  ⟨rfl, (tool_call_translation_total (fun _ => none) "u9" none none
      (some [⟨"Bash", "oops", "id9"⟩]) none none none none).1
      ⟨"Bash", "oops", "id9"⟩ [] rfl⟩

/-- Transport writes observable in the barrier interleaving model. -/
inductive WriteEvt where
  | controlResponseWrite
  | userWrite
  | interruptWrite
deriving DecidableEq

/-- Program counter of the pump inside `handleCanUseTool` after the barrier
has been engaged: about to run the decision step, about to write the
control response, inside the finally block about to release, or done. -/
inductive PumpPc where
  | deciding
  | writingResponse
  | releasing
  | done
deriving DecidableEq

/-- Program counter of a concurrent `send()`/`abort()` caller: before its
`waitForApprovalClear` check, parked on the barrier promise, or past its
transport write. -/
inductive SenderPc where
  | beforeWait
  | parked
  | wrote
deriving DecidableEq

/-- Joint state of the pump's permission handler and one concurrent
sender, with the barrier flag and the ordered trace of transport writes. -/
structure BarrierState where
  pump : PumpPc
  sender : SenderPc
  barrier : Bool
  trace : List WriteEvt
deriving DecidableEq

/-- Initial state of the interleaving class the claim quantifies over: the
pump has already engaged the barrier (`startApprovalBarrier` ran) and the
concurrent sender has not yet reached its barrier check. -/
def barrierInit : BarrierState :=
  { pump := .deciding, sender := .beforeWait, barrier := true, trace := [] }

/-- Small-step interleaving semantics of `handleCanUseTool` running
concurrently with one `send()`/`abort()` caller writing frame `sf`. The
decision step may return or throw (a throw is caught and still leads to
the response write); the response write may succeed (appending the
control-response write to the trace) or throw (the finally block still
runs); the release step is the finally block. The sender checks the
barrier once: if engaged it parks on the barrier promise and can write
only after the barrier is released; if clear it writes immediately. -/
inductive BarrierStep (sf : WriteEvt) : BarrierState → BarrierState → Prop where
  | decideReturns (s : BarrierState) (h : s.pump = .deciding) :
      BarrierStep sf s { s with pump := .writingResponse }
  | decideThrowsCaught (s : BarrierState) (h : s.pump = .deciding) :
      BarrierStep sf s { s with pump := .writingResponse }
  | writeResponseOk (s : BarrierState) (h : s.pump = .writingResponse) :
      BarrierStep sf s { s with pump := .releasing,
                                trace := s.trace ++ [.controlResponseWrite] }
  | writeResponseThrows (s : BarrierState) (h : s.pump = .writingResponse) :
      BarrierStep sf s { s with pump := .releasing }
  | releaseBarrier (s : BarrierState) (h : s.pump = .releasing) :
      BarrierStep sf s { s with pump := .done, barrier := false }
  | senderSeesBarrier (s : BarrierState) (h1 : s.sender = .beforeWait)
      (h2 : s.barrier = true) :
      BarrierStep sf s { s with sender := .parked }
  | senderWritesDirect (s : BarrierState) (h1 : s.sender = .beforeWait)
      (h2 : s.barrier = false) :
      BarrierStep sf s { s with sender := .wrote, trace := s.trace ++ [sf] }
  | senderResumesAndWrites (s : BarrierState) (h1 : s.sender = .parked)
      (h2 : s.barrier = false) :
      BarrierStep sf s { s with sender := .wrote, trace := s.trace ++ [sf] }

/-- States reachable from the engaged-barrier initial state. -/
inductive BarrierReachable (sf : WriteEvt) : BarrierState → Prop where
  | start : BarrierReachable sf barrierInit
  | step {s t : BarrierState} : BarrierReachable sf s → BarrierStep sf s t →
      BarrierReachable sf t

/-- Inductive invariant of the barrier system: the barrier is engaged
exactly while the handler has not finished; the sender writes only after
the handler is done; the trace is one of the four write orders in which
the control response (if written) precedes the sender frame; a written
control response means the handler is at or past its finally block; a
sender frame in the trace means the sender finished. -/
def BarrierInv (sf : WriteEvt) (s : BarrierState) : Prop :=
  (s.barrier = true ↔ s.pump ≠ .done) ∧
  (s.sender = .wrote → s.pump = .done) ∧
  (s.trace = [] ∨ s.trace = [.controlResponseWrite] ∨ s.trace = [sf] ∨
    s.trace = [.controlResponseWrite, sf]) ∧
  (WriteEvt.controlResponseWrite ∈ s.trace → (s.pump = .releasing ∨ s.pump = .done)) ∧
  (sf ∈ s.trace → s.sender = .wrote)

theorem barrierInv_holds (sf : WriteEvt) (hsf : sf ≠ .controlResponseWrite)
    {s : BarrierState} (hs : BarrierReachable sf s) : BarrierInv sf s := by
  induction hs with
  | start =>
      refine ⟨?_, ?_, ?_, ?_, ?_⟩ <;> simp [barrierInit]
  | @step s t hr hst ih =>
      obtain ⟨ih1, ih2, ih3, ih4, ih5⟩ := ih
      cases hst with
      | decideReturns h =>
          have hnd : s.pump ≠ PumpPc.done := by rw [h]; decide
          have hb : s.barrier = true := ih1.mpr hnd
          have hsw : s.sender ≠ SenderPc.wrote := fun hw => by
            have h2 := ih2 hw; rw [h] at h2; cases h2
          have hnc : WriteEvt.controlResponseWrite ∉ s.trace := fun hc => by
            rcases ih4 hc with h4 | h4 <;> rw [h] at h4 <;> cases h4
          refine ⟨by simp [hb], fun hw => absurd hw hsw, ih3,
            fun hc => absurd hc hnc, ih5⟩
      | decideThrowsCaught h =>
          have hnd : s.pump ≠ PumpPc.done := by rw [h]; decide
          have hb : s.barrier = true := ih1.mpr hnd
          have hsw : s.sender ≠ SenderPc.wrote := fun hw => by
            have h2 := ih2 hw; rw [h] at h2; cases h2
          have hnc : WriteEvt.controlResponseWrite ∉ s.trace := fun hc => by
            rcases ih4 hc with h4 | h4 <;> rw [h] at h4 <;> cases h4
          refine ⟨by simp [hb], fun hw => absurd hw hsw, ih3,
            fun hc => absurd hc hnc, ih5⟩
      | writeResponseOk h =>
          have hnd : s.pump ≠ PumpPc.done := by rw [h]; decide
          have hb : s.barrier = true := ih1.mpr hnd
          have hsw : s.sender ≠ SenderPc.wrote := fun hw => by
            have h2 := ih2 hw; rw [h] at h2; cases h2
          have hnc : WriteEvt.controlResponseWrite ∉ s.trace := fun hc => by
            rcases ih4 hc with h4 | h4 <;> rw [h] at h4 <;> cases h4
          have hns : sf ∉ s.trace := fun hm => hsw (ih5 hm)
          have htr : s.trace = [] := by
            rcases ih3 with h3 | h3 | h3 | h3
            · exact h3
            · exact absurd (by rw [h3]; simp) hnc
            · exact absurd (by rw [h3]; simp) hns
            · exact absurd (by rw [h3]; simp) hnc
          refine ⟨by simp [hb], fun hw => absurd hw hsw, ?_, fun _ => Or.inl rfl, ?_⟩
          · rw [htr]
            simp
          · intro hm
            simp only [List.mem_append, List.mem_singleton] at hm
            rcases hm with hm | hm
            · exact absurd hm hns
            · exact absurd hm hsf
      | writeResponseThrows h =>
          have hnd : s.pump ≠ PumpPc.done := by rw [h]; decide
          have hb : s.barrier = true := ih1.mpr hnd
          have hsw : s.sender ≠ SenderPc.wrote := fun hw => by
            have h2 := ih2 hw; rw [h] at h2; cases h2
          refine ⟨by simp [hb], fun hw => absurd hw hsw, ih3,
            fun _ => Or.inl rfl, ih5⟩
      | releaseBarrier h =>
          refine ⟨by simp, fun _ => rfl, ih3, fun _ => Or.inr rfl, ih5⟩
      | senderSeesBarrier h1 h2 =>
          refine ⟨ih1, ?_, ih3, ih4, ?_⟩
          · intro hw
            cases hw
          · intro hm
            have h5 := ih5 hm
            rw [h1] at h5
            cases h5
      | senderWritesDirect h1 h2 =>
          have hpd : s.pump = PumpPc.done := by
            by_contra hnd
            rw [ih1.mpr hnd] at h2
            cases h2
          have hns : sf ∉ s.trace := fun hm => by
            have h5 := ih5 hm; rw [h1] at h5; cases h5
          refine ⟨by simp [h2, hpd], fun _ => hpd, ?_, fun _ => Or.inr hpd,
            fun _ => rfl⟩
          rcases ih3 with h3 | h3 | h3 | h3
          · rw [h3]; simp
          · rw [h3]; simp
          · exact absurd (by rw [h3]; simp) hns
          · exact absurd (by rw [h3]; simp) hns
      | senderResumesAndWrites h1 h2 =>
          have hpd : s.pump = PumpPc.done := by
            by_contra hnd
            rw [ih1.mpr hnd] at h2
            cases h2
          have hns : sf ∉ s.trace := fun hm => by
            have h5 := ih5 hm; rw [h1] at h5; cases h5
          refine ⟨by simp [h2, hpd], fun _ => hpd, ?_, fun _ => Or.inr hpd,
            fun _ => rfl⟩
          rcases ih3 with h3 | h3 | h3 | h3
          · rw [h3]; simp
          · rw [h3]; simp
          · exact absurd (by rw [h3]; simp) hns
          · exact absurd (by rw [h3]; simp) hns

/-- C1: barrier serialization — in every interleaving where the pump
engages the approval barrier before a concurrent `send()`/`abort()` call
reaches its barrier wait, the user-message (or interrupt) frame is written
only after the permission handler has completed and released the barrier;
whenever both the control-response write and the sender write occur, the
trace is exactly control-response first, sender frame second; and in every
terminal state the handler has completed and the barrier is released
(covering the decision-step-throws and response-write-throws exit paths). -/
theorem barrier_serialization (sf : WriteEvt)
    (hsf : sf = .userWrite ∨ sf = .interruptWrite) (s : BarrierState)
    (hs : BarrierReachable sf s) :
    (sf ∈ s.trace → s.pump = .done ∧ s.barrier = false) ∧
    (sf ∈ s.trace → WriteEvt.controlResponseWrite ∈ s.trace →
        s.trace = [.controlResponseWrite, sf]) ∧
    ((∀ t, ¬ BarrierStep sf s t) → s.pump = .done ∧ s.barrier = false) := by
  have hne : sf ≠ .controlResponseWrite := by
    rcases hsf with h | h <;> subst h <;> decide
  obtain ⟨i1, i2, i3, i4, i5⟩ := barrierInv_holds sf hne hs
  have hbarOf : s.pump = .done → s.barrier = false := fun hpd => by
    cases hbar : s.barrier
    · rfl
    · exact absurd hpd (i1.mp hbar)
  refine ⟨?_, ?_, ?_⟩
  · intro hm
    have hpd : s.pump = .done := i2 (i5 hm)
    exact ⟨hpd, hbarOf hpd⟩
  · intro hm hc
    rcases i3 with h3 | h3 | h3 | h3
    · rw [h3] at hm; cases hm
    · rw [h3, List.mem_singleton] at hm; exact absurd hm hne
    · rw [h3, List.mem_singleton] at hc; exact absurd hc.symm hne
    · exact h3
  · intro hterm
    have hpd : s.pump = .done := by
      cases hp : s.pump
      · exact absurd (BarrierStep.decideReturns s hp) (hterm _)
      · exact absurd (BarrierStep.writeResponseOk s hp) (hterm _)
      · exact absurd (BarrierStep.releaseBarrier s hp) (hterm _)
      · rfl
    exact ⟨hpd, hbarOf hpd⟩

/-- Witness: the theorem applied at the initial engaged state for a
concurrent user-message sender. -/
theorem barrier_serialization_witness :
    (WriteEvt.userWrite = WriteEvt.userWrite ∨
      WriteEvt.userWrite = WriteEvt.interruptWrite) ∧
    BarrierReachable .userWrite barrierInit ∧
    ((WriteEvt.userWrite ∈ barrierInit.trace →
        barrierInit.pump = .done ∧ barrierInit.barrier = false) ∧
     (WriteEvt.userWrite ∈ barrierInit.trace →
        WriteEvt.controlResponseWrite ∈ barrierInit.trace →
        barrierInit.trace = [.controlResponseWrite, .userWrite]) ∧
     ((∀ t, ¬ BarrierStep .userWrite barrierInit t) →
        barrierInit.pump = .done ∧ barrierInit.barrier = false)) :=
  ⟨Or.inl rfl, .start,
    barrier_serialization .userWrite (Or.inl rfl) barrierInit .start⟩

end LettaSDK
